import Mathlib

/-!
Verification of the padlocal-client action-stream multiplexer (`GrpcClient.ts`)
and the file-transfer pipeline (`FileUtils.ts`), via a shallow embedding of the
TypeScript source into Lean.

The multiplexer state (`_status`, `_seqId`, `_pendingCallbacks`) becomes an
explicit record; each method becomes a function from state to state paired with
a list of observable effects (frames written, promises resolved or rejected,
stream-level actions).  External collaborators (grpc stream, socket proxies,
long-link proxy) are modelled by an environment of result-returning functions.
-/

namespace PadLocal

/-- The `Status` enum of `GrpcClient.ts`. -/
inductive Status where
  | OK
  | SERVER_ERROR
  | SERVER_COMPLETE
  | CLIENT_ERROR
  | CLIENT_COMPLETE
deriving DecidableEq, Repr

/-- The variant carried by a `WeChatRequest` (its `RequestCase`):
socket request, long-link request, short-link request, or an
unrecognized case number. -/
inductive WeChatReq where
  | socketReq (host : String) (payload : List Nat)
  | longLinkReq (llSeq : Nat) (initMode : Bool) (payload : List Nat)
  | shortLinkReq (host : String) (port : Nat) (path : String) (payload : List Nat)
  | unknownCase (n : Nat)
deriving DecidableEq, Repr

/-- The wrapped response payloads built by the forwarding handlers. -/
inductive WeChatResp where
  | longLinkResp (payload : List Nat)
  | shortLinkResp (payload : List Nat)
deriving DecidableEq, Repr

/-- The payload of an `ActionMessage` (its `PayloadCase`): a proxied
WeChat request, a system event request/response, a WeChat response, or
any other message surfaced to the message callback. -/
inductive Payload where
  | weChatRequest (r : WeChatReq)
  | weChatResponse (r : WeChatResp)
  | systemEventRequest
  | systemEventResponse
  | msg (tag : Nat)
deriving DecidableEq, Repr

/-- An `ActionMessage` header plus payload.  Protobuf scalar fields decode
absent values as `0`, exactly as `getSeq()` / `getAck()` do in the source,
so `seq` and `ack` are plain naturals with `0` meaning absent. -/
structure Frame where
  seq : Nat
  ack : Nat
  payload : Payload
deriving DecidableEq, Repr

/-- The errors of `GrpcClient.ts`: `SubRequestCancelError` carrying its
terminal-status `reason` (the spec's `ChannelClosed` / cancellation error),
the request-timeout `IOError`, and the forwarding `IOError`. -/
inductive Err where
  | cancel (reason : Status)
  | requestTimeout
  | forwarding
deriving DecidableEq, Repr

/-- Observable effects of one multiplexer step: frames written to the grpc
stream, pending promises resolved or rejected, transport side channels
invoked, callbacks surfaced, and stream-level actions (`cancel` / `end`). -/
inductive Effect where
  | wroteFrame (seq : Option Nat) (ack : Option Nat) (p : Payload)
  | resolved (key : Nat) (seq : Nat) (p : Payload)
  | rejected (key : Nat) (e : Err)
  | socketForwarded (host : String) (ack : Nat)
  | longLinkInitForwarded (ack : Nat)
  | systemEventSurfaced
  | messageSurfaced (p : Payload)
  | streamCancelled
  | streamEnded
deriving DecidableEq, Repr

/-- The mutable state of one `GrpcClient` instance: `_status`, `_seqId`,
and the key set of `_pendingCallbacks` (a JS `Map` keyed by seq id; the
stored callbacks carry no data the model needs, so the table is its key
list, kept duplicate-free by the `Map` semantics of `pset`). -/
structure MuxState where
  status : Status
  seqId : Nat
  pending : List Nat
deriving DecidableEq, Repr

/-- `Map.set` on the pending table: inserting an already-present key
replaces its value (hence leaves the key list unchanged). -/
def pset (m : List Nat) (k : Nat) : List Nat :=
  if k ∈ m then m else m ++ [k]

/-- `Map.delete` on the pending table. -/
def pdel (m : List Nat) (k : Nat) : List Nat :=
  m.filter (fun j => j ≠ k)

/-- The constructor's state initialization: `_status = Status.OK`,
`_seqId = 0`, `_pendingCallbacks = new Map()`. -/
def initState : MuxState := { status := .OK, seqId := 0, pending := [] }

/-- `GrpcClient.DEFAULT_REQUEST_TIMEOUT = 60 * 1000`. -/
def DEFAULT_REQUEST_TIMEOUT : Nat := 60 * 1000

/-- `this._requestTimeout = options?.requestTimeout || DEFAULT_REQUEST_TIMEOUT`:
an absent (or zero, hence falsy) option falls back to the default. -/
def effectiveRequestTimeout (opt : Option Nat) : Nat :=
  match opt with
  | none => DEFAULT_REQUEST_TIMEOUT
  | some t => if t = 0 then DEFAULT_REQUEST_TIMEOUT else t

/-- The guard of `__sendMessage`: sending is allowed while the status is
`OK` *or* `SERVER_COMPLETE` (`_status !== Status.OK && _status !==
Status.SERVER_COMPLETE` throws). -/
def sendable : Status → Bool
  | .OK => true
  | .SERVER_COMPLETE => true
  | _ => false

/-- `__sendMessage(payload, seq?, ack?)`: throws `SubRequestCancelError`
with the current status as reason when the status is not sendable,
otherwise writes one frame onto the grpc stream. -/
def sendMessageLow (status : Status) (p : Payload) (seq ack : Option Nat) :
    Except Err Effect :=
  if sendable status then .ok (.wroteFrame seq ack p)
  else .error (.cancel status)

/-- `_sendMessage(request, sendOnly, ack?)`.  In the `sendOnly` branch the
state is untouched and the frame write is attempted directly.  Otherwise
`++this._seqId` allocates a fresh sequence number, a `PromiseCallback` is
registered under it, and only then is the frame write attempted — so when
the guard throws, the promise rejects with the error but the freshly
registered entry stays in the table (to be cleared by its timer).
The result is the post state, the effects, and the error the returned
promise was rejected with, if any. -/
def sendMessage (st : MuxState) (p : Payload) (sendOnly : Bool) (ack : Option Nat) :
    MuxState × List Effect × Option Err :=
  if sendOnly then
    match sendMessageLow st.status p none ack with
    | .ok eff => (st, [eff], none)
    | .error e => (st, [], some e)
  else
    match sendMessageLow st.status p (some (st.seqId + 1)) ack with
    | .ok eff =>
      ({ st with seqId := st.seqId + 1, pending := pset st.pending (st.seqId + 1) },
        [eff], none)
    | .error e =>
      ({ st with seqId := st.seqId + 1, pending := pset st.pending (st.seqId + 1) },
        [], some e)

/-- `_completePendingRequest(ack, payload, seq?)`: look the callback up,
delete the entry, and — only when one was found — resolve it with the
payload and the frame's `seq`. -/
def completePendingRequest (st : MuxState) (ack : Nat) (p : Payload) (seq : Nat) :
    MuxState × List Effect :=
  if ack ∈ st.pending then
    ({ st with pending := pdel st.pending ack }, [.resolved ack seq p])
  else
    ({ st with pending := pdel st.pending ack }, [])

/-- `_failPendingRequest(ack, error)`: look the callback up, delete the
entry, and reject it (if found) with the given error. -/
def failPendingRequest (st : MuxState) (k : Nat) (e : Err) :
    MuxState × List Effect :=
  if k ∈ st.pending then
    ({ st with pending := pdel st.pending k }, [.rejected k e])
  else
    ({ st with pending := pdel st.pending k }, [])

/-- `_failAllPendingRequest(status, error)`: reject every callback with a
`SubRequestCancelError` carrying `status`, then clear the table. -/
def failAllPendingRequest (st : MuxState) (reason : Status) :
    MuxState × List Effect :=
  ({ st with pending := [] }, st.pending.map (fun k => .rejected k (.cancel reason)))

/-- The `on("end")` stream handler: a no-op unless the status is `OK`, in
which case all pending requests fail with `SERVER_COMPLETE` and the status
becomes `SERVER_COMPLETE`. -/
def onStreamEnd (st : MuxState) : MuxState × List Effect :=
  if st.status ≠ Status.OK then (st, [])
  else
    let r := failAllPendingRequest st .SERVER_COMPLETE
    ({ r.1 with status := .SERVER_COMPLETE }, r.2)

/-- The `on("error")` stream handler: a no-op unless the status is `OK`,
in which case all pending requests fail with `SERVER_ERROR` and the status
becomes `SERVER_ERROR`. -/
def onStreamError (st : MuxState) : MuxState × List Effect :=
  if st.status ≠ Status.OK then (st, [])
  else
    let r := failAllPendingRequest st .SERVER_ERROR
    ({ r.1 with status := .SERVER_ERROR }, r.2)

/-- `error(e)`: a no-op unless the status is `OK`; otherwise fail all
pending requests with `CLIENT_ERROR`, set the status, then cancel the
underlying grpc stream. -/
def errorCall (st : MuxState) : MuxState × List Effect :=
  if st.status ≠ Status.OK then (st, [])
  else
    let r := failAllPendingRequest st .CLIENT_ERROR
    ({ r.1 with status := .CLIENT_ERROR }, r.2 ++ [.streamCancelled])

/-- `complete()`: a no-op unless the status is `OK`; otherwise fail all
pending requests with `CLIENT_COMPLETE`, set the status, then end the
underlying grpc stream for writes. -/
def completeCall (st : MuxState) : MuxState × List Effect :=
  if st.status ≠ Status.OK then (st, [])
  else
    let r := failAllPendingRequest st .CLIENT_COMPLETE
    ({ r.1 with status := .CLIENT_COMPLETE }, r.2 ++ [.streamEnded])

/-- The external transports the forwarding handlers call into
(`WeChatSocketProxy`, the shared long-link proxy, `WeChatShortLinkProxy`).
Each send either succeeds (returning the transport's response bytes where
the handler awaits one) or fails, which the handler's caller observes as a
thrown exception. -/
structure Env where
  socketSend : String → Nat → List Nat → Except Unit Unit
  longLinkInitSend : List Nat → Nat → Except Unit Unit
  longLinkSend : Nat → List Nat → Except Unit (List Nat)
  shortLinkSend : String → Nat → String → List Nat → Except Unit (List Nat)

/-- `subReply(ack, replay)` runs `_sendMessage(replay, true, ack).then()`:
the frame write is attempted, and a guard rejection is swallowed by the
un-awaited promise (it does not propagate into the caller's try/catch). -/
def subReplyEffects (status : Status) (ack : Nat) (p : Payload) : List Effect :=
  match sendMessageLow status p none (some ack) with
  | .ok eff => [eff]
  | .error _ => []

/-- The body of the `try` block of `_onServerMessage` for a
`WECHATREQUEST` payload: dispatch on the request case to
`_handleSocketRequest` / `_handleLongLinkRequest` / `_handleShortLinkRequest`,
or throw for an unsupported case.  An `Except.error` result is the
exception the surrounding `catch` receives. -/
def forwardWeChatRequest (env : Env) (status : Status) (r : WeChatReq) (ack : Nat) :
    Except Unit (List Effect) :=
  match r with
  | .socketReq host payload =>
    match env.socketSend host ack payload with
    | .ok _ => .ok [.socketForwarded host ack]
    | .error _ => .error ()
  | .longLinkReq llSeq initMode payload =>
    if initMode then
      match env.longLinkInitSend payload ack with
      | .ok _ => .ok [.longLinkInitForwarded ack]
      | .error _ => .error ()
    else
      match env.longLinkSend llSeq payload with
      | .ok data => .ok (subReplyEffects status ack (.weChatResponse (.longLinkResp data)))
      | .error _ => .error ()
  | .shortLinkReq host port path payload =>
    match env.shortLinkSend host port path payload with
    | .ok data => .ok (subReplyEffects status ack (.weChatResponse (.shortLinkResp data)))
    | .error _ => .error ()
  | .unknownCase _ => .error ()

/-- `_onServerMessage(serverMessage)`: a truthy (non-zero) `ack` resolves
the matching pending request; otherwise a `WECHATREQUEST` payload is
forwarded (exceptions are caught and routed to `error(new IOError(...))`),
a `SYSTEMEVENTREQUEST` is acknowledged with an empty reply keyed to its
`seq` and surfaced to the system-event callback, and anything else is
surfaced to the message callback. -/
def onServerMessage (env : Env) (st : MuxState) (f : Frame) : MuxState × List Effect :=
  if f.ack ≠ 0 then
    completePendingRequest st f.ack f.payload f.seq
  else
    match f.payload with
    | .weChatRequest r =>
      match forwardWeChatRequest env st.status r f.seq with
      | .ok effs => (st, effs)
      | .error _ => errorCall st
    | .systemEventRequest =>
      (st, subReplyEffects st.status f.seq .systemEventResponse ++ [.systemEventSurfaced])
    | p => (st, [.messageSurfaced p])

/-- One externally triggered event on a `GrpcClient` instance: a
correlated request (`request` / `subReplyAndRequest`), a fire-and-forget
send (`subRequest` with `sendOnly` / `subReply`), an inbound frame, a
request timer firing, the two stream signals, and the two explicit
teardown calls. -/
inductive Op where
  | sendReq (p : Payload) (ack : Option Nat)
  | sendFire (p : Payload) (ack : Option Nat)
  | inbound (f : Frame)
  | timerFire (k : Nat)
  | streamEnd
  | streamError
  | clientError
  | clientComplete
deriving DecidableEq, Repr

/-- The step function of the multiplexer: the state change and effects of
one event. -/
def step (env : Env) (st : MuxState) : Op → MuxState × List Effect
  | .sendReq p ack => let r := sendMessage st p false ack; (r.1, r.2.1)
  | .sendFire p ack => let r := sendMessage st p true ack; (r.1, r.2.1)
  | .inbound f => onServerMessage env st f
  | .timerFire k => failPendingRequest st k .requestTimeout
  | .streamEnd => onStreamEnd st
  | .streamError => onStreamError st
  | .clientError => errorCall st
  | .clientComplete => completeCall st

/-- Run a sequence of events from a state. -/
def run (env : Env) (st : MuxState) : List Op → MuxState
  | [] => st
  | op :: rest => run env (step env st op).1 rest

/-- A concrete environment whose transports all succeed with empty
responses, used to instantiate universally quantified theorems. -/
def env0 : Env :=
  { socketSend := fun _ _ _ => .ok ()
    longLinkInitSend := fun _ _ => .ok ()
    longLinkSend := fun _ _ => .ok []
    shortLinkSend := fun _ _ _ _ => .ok [] }

/-! ### Invariants of the pending table and sequence counter -/

/-- The pending-table invariant: keys are duplicate-free and every live
key is a previously allocated sequence number (between 1 and `_seqId`). -/
def Inv (st : MuxState) : Prop :=
  st.pending.Nodup ∧ ∀ k ∈ st.pending, 1 ≤ k ∧ k ≤ st.seqId

lemma pset_of_not_mem {m : List Nat} {k : Nat} (h : k ∉ m) : pset m k = m ++ [k] := by
  simp [pset, h]

lemma pdel_sublist (m : List Nat) (k : Nat) : (pdel m k).Sublist m :=
  List.filter_sublist m

lemma mem_pdel {m : List Nat} {j k : Nat} : j ∈ pdel m k ↔ j ∈ m ∧ j ≠ k := by
  simp [pdel]

lemma inv_init : Inv initState := by
  constructor
  · exact List.nodup_nil
  · intro k hk
    simp [initState] at hk

lemma inv_of_pdel {st : MuxState} (h : Inv st) (k : Nat) :
    Inv { st with pending := pdel st.pending k } := by
  refine ⟨(pdel_sublist st.pending k).nodup h.1, ?_⟩
  intro j hj
  exact h.2 j (mem_pdel.mp hj).1

lemma completePendingRequest_fst (st : MuxState) (a : Nat) (p : Payload) (sq : Nat) :
    (completePendingRequest st a p sq).1 = { st with pending := pdel st.pending a } := by
  unfold completePendingRequest
  split <;> rfl

lemma failPendingRequest_fst (st : MuxState) (k : Nat) (e : Err) :
    (failPendingRequest st k e).1 = { st with pending := pdel st.pending k } := by
  unfold failPendingRequest
  split <;> rfl

lemma inv_cleared (st : MuxState) (s' : Status) :
    Inv { st with status := s', pending := [] } := by
  refine ⟨List.nodup_nil, ?_⟩
  intro k hk
  exact absurd hk (List.not_mem_nil k)

lemma errorCall_inv (st : MuxState) (h : Inv st) :
    Inv (errorCall st).1 ∧ (errorCall st).1.seqId = st.seqId := by
  unfold errorCall failAllPendingRequest
  split
  · exact ⟨h, rfl⟩
  · exact ⟨inv_cleared st _, rfl⟩

lemma completeCall_inv (st : MuxState) (h : Inv st) :
    Inv (completeCall st).1 ∧ (completeCall st).1.seqId = st.seqId := by
  unfold completeCall failAllPendingRequest
  split
  · exact ⟨h, rfl⟩
  · exact ⟨inv_cleared st _, rfl⟩

lemma onStreamEnd_inv (st : MuxState) (h : Inv st) :
    Inv (onStreamEnd st).1 ∧ (onStreamEnd st).1.seqId = st.seqId := by
  unfold onStreamEnd failAllPendingRequest
  split
  · exact ⟨h, rfl⟩
  · exact ⟨inv_cleared st _, rfl⟩

lemma onStreamError_inv (st : MuxState) (h : Inv st) :
    Inv (onStreamError st).1 ∧ (onStreamError st).1.seqId = st.seqId := by
  unfold onStreamError failAllPendingRequest
  split
  · exact ⟨h, rfl⟩
  · exact ⟨inv_cleared st _, rfl⟩

lemma sendMessage_fst_sendOnly (st : MuxState) (p : Payload) (ack : Option Nat) :
    (sendMessage st p true ack).1 = st := by
  unfold sendMessage
  cases h : sendMessageLow st.status p none ack <;> simp [h]

lemma sendMessage_fst_req (st : MuxState) (p : Payload) (ack : Option Nat) :
    (sendMessage st p false ack).1 =
      { st with seqId := st.seqId + 1, pending := pset st.pending (st.seqId + 1) } := by
  unfold sendMessage
  cases h : sendMessageLow st.status p (some (st.seqId + 1)) ack <;> simp [h]

lemma step_inv (env : Env) (st : MuxState) (op : Op) (h : Inv st) :
    Inv (step env st op).1 ∧ st.seqId ≤ (step env st op).1.seqId := by
  have hnd := h.1
  have hb := h.2
  cases op with
  | sendReq p ack =>
    have hfresh : st.seqId + 1 ∉ st.pending := by
      intro hmem
      exact absurd (hb _ hmem).2 (by omega)
    have hstate : (step env st (.sendReq p ack)).1 =
        { st with seqId := st.seqId + 1, pending := st.pending ++ [st.seqId + 1] } := by
      show (sendMessage st p false ack).1 = _
      rw [sendMessage_fst_req, pset_of_not_mem hfresh]
    rw [hstate]
    refine ⟨⟨?_, ?_⟩, ?_⟩
    · show (st.pending ++ [st.seqId + 1]).Nodup
      refine List.Nodup.append hnd (List.nodup_singleton _) ?_
      intro a ha ha2
      rw [List.mem_singleton] at ha2
      subst ha2
      exact hfresh ha
    · show ∀ k ∈ st.pending ++ [st.seqId + 1], 1 ≤ k ∧ k ≤ st.seqId + 1
      intro k hk
      rcases List.mem_append.mp hk with hk | hk
      · have := hb k hk
        omega
      · rw [List.mem_singleton] at hk
        omega
    · show st.seqId ≤ st.seqId + 1
      omega
  | sendFire p ack =>
    have hstate : (step env st (.sendFire p ack)).1 = st := sendMessage_fst_sendOnly st p ack
    rw [hstate]
    exact ⟨h, le_refl _⟩
  | inbound f =>
    show Inv (onServerMessage env st f).1 ∧ st.seqId ≤ (onServerMessage env st f).1.seqId
    unfold onServerMessage
    by_cases hack : f.ack ≠ 0
    · rw [if_pos hack, completePendingRequest_fst]
      exact ⟨inv_of_pdel h _, le_refl _⟩
    · rw [if_neg hack]
      cases f.payload with
      | weChatRequest r =>
        cases hfw : forwardWeChatRequest env st.status r f.seq with
        | ok effs =>
          simp only [hfw]
          exact ⟨h, le_refl _⟩
        | error e =>
          simp only [hfw]
          have he := errorCall_inv st h
          exact ⟨he.1, le_of_eq he.2.symm⟩
      | weChatResponse r => exact ⟨h, le_refl _⟩
      | systemEventRequest => exact ⟨h, le_refl _⟩
      | systemEventResponse => exact ⟨h, le_refl _⟩
      | msg t => exact ⟨h, le_refl _⟩
  | timerFire k =>
    show Inv (failPendingRequest st k .requestTimeout).1 ∧
      st.seqId ≤ (failPendingRequest st k .requestTimeout).1.seqId
    rw [failPendingRequest_fst]
    exact ⟨inv_of_pdel h _, le_refl _⟩
  | streamEnd =>
    have he := onStreamEnd_inv st h
    exact ⟨he.1, le_of_eq he.2.symm⟩
  | streamError =>
    have he := onStreamError_inv st h
    exact ⟨he.1, le_of_eq he.2.symm⟩
  | clientError =>
    have he := errorCall_inv st h
    exact ⟨he.1, le_of_eq he.2.symm⟩
  | clientComplete =>
    have he := completeCall_inv st h
    exact ⟨he.1, le_of_eq he.2.symm⟩

lemma run_inv (env : Env) (ops : List Op) (st : MuxState) (h : Inv st) :
    Inv (run env st ops) := by
  induction ops generalizing st with
  | nil => exact h
  | cons op rest ih => exact ih _ (step_inv env st op h).1

lemma step_sendReq_fst (env : Env) (st : MuxState) (p : Payload) (a : Option Nat)
    (hb : ∀ k ∈ st.pending, k ≤ st.seqId) :
    (step env st (.sendReq p a)).1 =
      { st with seqId := st.seqId + 1, pending := st.pending ++ [st.seqId + 1] } := by
  have hfresh : st.seqId + 1 ∉ st.pending := by
    intro hmem
    exact absurd (hb _ hmem) (by omega)
  show (sendMessage st p false a).1 = _
  rw [sendMessage_fst_req, pset_of_not_mem hfresh]

/-- Running a block of correlated `request` calls (no replies in between)
allocates the consecutive sequence numbers above `_seqId` and appends them
to the pending table in order. -/
lemma run_requests (env : Env) (ops : List Op)
    (hops : ∀ op ∈ ops, ∃ p a, op = Op.sendReq p a) (st : MuxState)
    (hb : ∀ k ∈ st.pending, k ≤ st.seqId) :
    run env st ops =
      { st with seqId := st.seqId + ops.length,
                pending := st.pending ++ List.range' (st.seqId + 1) ops.length } := by
  induction ops generalizing st with
  | nil => simp [run]
  | cons op rest ih =>
    obtain ⟨p, a, rfl⟩ := hops op (List.mem_cons_self op rest)
    show run env (step env st (.sendReq p a)).1 rest = _
    rw [step_sendReq_fst env st p a hb]
    rw [ih (fun o ho => hops o (List.mem_cons_of_mem _ ho)) _ ?_]
    · have harith : st.seqId + 1 + rest.length = st.seqId + (rest.length + 1) := by omega
      have hlist : (st.pending ++ [st.seqId + 1]) ++ List.range' (st.seqId + 1 + 1) rest.length =
          st.pending ++ List.range' (st.seqId + 1) (rest.length + 1) := by
        rw [List.append_assoc, List.range'_succ]
        rfl
      simp only [List.length_cons, harith, hlist]
    · intro k hk
      replace hk : k ∈ st.pending ++ [st.seqId + 1] := hk
      show k ≤ st.seqId + 1
      rcases List.mem_append.mp hk with hk | hk
      · have := hb k hk
        omega
      · rw [List.mem_singleton] at hk
        omega

/-! ### Claim theorems: status machine and sequence allocation -/

/-- Claim C3: the connection status starts at `OK` and is monotonic: once
any of the four transition paths (stream end, stream error, explicit
`error(e)`, explicit `complete()`) moves it off `OK`, the status is
terminal, and every subsequent transition path is a no-op — it changes no
state, produces no additional pending-request failures and no additional
stream-level side effect. -/
theorem claim_C3 :
    initState.status = Status.OK ∧
    (∀ st : MuxState, st.status ≠ Status.OK →
      onStreamEnd st = (st, []) ∧ onStreamError st = (st, []) ∧
      errorCall st = (st, []) ∧ completeCall st = (st, [])) ∧
    (∀ st : MuxState, st.status = Status.OK →
      (onStreamEnd st).1.status ≠ Status.OK ∧
      (onStreamError st).1.status ≠ Status.OK ∧
      (errorCall st).1.status ≠ Status.OK ∧
      (completeCall st).1.status ≠ Status.OK) := by
  refine ⟨rfl, ?_, ?_⟩
  · intro st h
    refine ⟨?_, ?_, ?_, ?_⟩ <;>
      simp only [onStreamEnd, onStreamError, errorCall, completeCall, if_pos h]
  · intro st h
    have hne : ¬st.status ≠ Status.OK := by
      simp [h]
    refine ⟨?_, ?_, ?_, ?_⟩ <;>
      simp only [onStreamEnd, onStreamError, errorCall, completeCall, if_neg hne] <;>
      decide

/-- Witness for C3 at concrete states. -/
theorem claim_C3_witness :
    (({ status := .SERVER_COMPLETE, seqId := 3, pending := [2] } : MuxState).status ≠ Status.OK ∧
      errorCall { status := .SERVER_COMPLETE, seqId := 3, pending := [2] } =
        ({ status := .SERVER_COMPLETE, seqId := 3, pending := [2] }, [])) ∧
    (({ status := .OK, seqId := 0, pending := [] } : MuxState).status = Status.OK ∧
      (completeCall { status := .OK, seqId := 0, pending := [] }).1.status ≠ Status.OK) := by
  refine ⟨⟨by decide, ?_⟩, ⟨rfl, ?_⟩⟩
  · exact (claim_C3.2.1 _ (by decide)).2.2.1
  · exact (claim_C3.2.2 _ rfl).2.2.2

/-- Claim C4: for every sequence of correlated `request` calls on one
instance issued before any reply arrives, the allocated sequence numbers
are exactly `1, 2, ..., n` — distinct, monotonically increasing starting
at 1, never reused — and the pending table holds at most one live entry
per sequence number (its key list is exactly `[1, ..., n]`, duplicate
free and strictly increasing). -/
theorem claim_C4 (env : Env) (ops : List Op)
    (hops : ∀ op ∈ ops, ∃ p a, op = Op.sendReq p a) :
    (run env initState ops).seqId = ops.length ∧
    (run env initState ops).pending = List.range' 1 ops.length ∧
    (run env initState ops).pending.Nodup ∧
    (run env initState ops).pending.Pairwise (· < ·) := by
  have h := run_requests env ops hops initState (by intro k hk; simp [initState] at hk)
  rw [h]
  refine ⟨?_, ?_, ?_, ?_⟩
  · show initState.seqId + ops.length = ops.length
    simp [initState]
  · show [] ++ List.range' (0 + 1) ops.length = List.range' 1 ops.length
    simp
  · show ([] ++ List.range' (0 + 1) ops.length).Nodup
    simpa using List.nodup_range' 1 ops.length
  · show ([] ++ List.range' (0 + 1) ops.length).Pairwise (· < ·)
    simpa using List.pairwise_lt_range' 1 ops.length

/-- Witness for C4: three consecutive requests allocate `[1, 2, 3]`. -/
theorem claim_C4_witness :
    (run env0 initState
        [.sendReq (.msg 0) none, .sendReq (.msg 1) none, .sendReq (.msg 2) none]).seqId = 3 ∧
    (run env0 initState
        [.sendReq (.msg 0) none, .sendReq (.msg 1) none, .sendReq (.msg 2) none]).pending =
      [1, 2, 3] := by
  have h := claim_C4 env0
    [.sendReq (.msg 0) none, .sendReq (.msg 1) none, .sendReq (.msg 2) none]
    (by intro op hop
        simp only [List.mem_cons, List.not_mem_nil, or_false] at hop
        rcases hop with h | h | h <;> exact ⟨_, _, h⟩)
  exact ⟨h.1, by rw [h.2.1]; rfl⟩

/-! ### Claim theorems: reply correlation, timeout, and routing -/

lemma pdel_of_not_mem {m : List Nat} {k : Nat} (h : k ∉ m) : pdel m k = m := by
  rw [pdel, List.filter_eq_self]
  intro j hj
  simp only [decide_eq_true_eq]
  intro hjk
  exact h (hjk ▸ hj)

lemma not_mem_pdel_self (m : List Nat) (k : Nat) : k ∉ pdel m k := by
  intro h
  exact absurd rfl (mem_pdel.mp h).2

/-- Claim C5: an inbound frame carrying `ack = k` resolves exactly the
pending request registered under `k` with the frame's payload and `seq`,
removing it from the table in the same step; a duplicate `ack = k` frame,
or an ack with no matching entry, is discarded silently, and no other
entry is touched either way. -/
theorem claim_C5 (env : Env) (st : MuxState) (f : Frame) (hack : f.ack ≠ 0) :
    onServerMessage env st f = completePendingRequest st f.ack f.payload f.seq ∧
    (f.ack ∈ st.pending →
      onServerMessage env st f =
        ({ st with pending := pdel st.pending f.ack }, [.resolved f.ack f.seq f.payload])) ∧
    f.ack ∉ (onServerMessage env st f).1.pending ∧
    (f.ack ∉ st.pending → onServerMessage env st f = (st, [])) ∧
    (∀ j, j ≠ f.ack → (j ∈ (onServerMessage env st f).1.pending ↔ j ∈ st.pending)) ∧
    onServerMessage env (onServerMessage env st f).1 f = ((onServerMessage env st f).1, []) := by
  have hroute : onServerMessage env st f = completePendingRequest st f.ack f.payload f.seq := by
    unfold onServerMessage
    rw [if_pos hack]
  have hfst : (onServerMessage env st f).1 = { st with pending := pdel st.pending f.ack } := by
    rw [hroute, completePendingRequest_fst]
  refine ⟨hroute, ?_, ?_, ?_, ?_, ?_⟩
  · intro hmem
    rw [hroute]
    unfold completePendingRequest
    rw [if_pos hmem]
  · rw [hfst]
    exact not_mem_pdel_self st.pending f.ack
  · intro hnm
    rw [hroute]
    unfold completePendingRequest
    rw [if_neg hnm, pdel_of_not_mem hnm]
  · intro j hj
    rw [hfst]
    show j ∈ pdel st.pending f.ack ↔ j ∈ st.pending
    rw [mem_pdel]
    exact ⟨fun h => h.1, fun h => ⟨h, hj⟩⟩
  · have habsent : f.ack ∉ (onServerMessage env st f).1.pending := by
      rw [hfst]
      exact not_mem_pdel_self st.pending f.ack
    have h2 : onServerMessage env (onServerMessage env st f).1 f =
        completePendingRequest (onServerMessage env st f).1 f.ack f.payload f.seq := by
      unfold onServerMessage
      rw [if_pos hack]
    rw [h2]
    unfold completePendingRequest
    rw [if_neg habsent, pdel_of_not_mem habsent]

/-- Witness for C5: a pending entry under key 2 is resolved by a frame
with `ack = 2` and removed; the duplicate is a no-op. -/
theorem claim_C5_witness :
    onServerMessage env0 { status := .OK, seqId := 2, pending := [1, 2] }
        { seq := 0, ack := 2, payload := .msg 9 } =
      ({ status := .OK, seqId := 2, pending := [1] }, [.resolved 2 0 (.msg 9)]) ∧
    onServerMessage env0 { status := .OK, seqId := 2, pending := [1] }
        { seq := 0, ack := 2, payload := .msg 9 } =
      ({ status := .OK, seqId := 2, pending := [1] }, []) := by
  have h := claim_C5 env0 { status := .OK, seqId := 2, pending := [1, 2] }
    { seq := 0, ack := 2, payload := .msg 9 } (by decide)
  constructor
  · have h1 := h.2.1 (by decide)
    rw [h1]
    decide
  · have h6 := h.2.2.2.2.2
    have hfst : (onServerMessage env0 { status := .OK, seqId := 2, pending := [1, 2] }
        { seq := 0, ack := 2, payload := .msg 9 }).1 =
        { status := .OK, seqId := 2, pending := [1] } := by
      rw [h.1]
      decide
    rw [hfst] at h6
    exact h6

/-- Claim C6: when the per-request timer registered for sequence number
`k` fires (default 60000 ms, configurable at construction, a zero or
absent option falling back to the default), the pending request under `k`
is rejected with the request-timeout error, the table afterwards holds no
entry for `k`, and no other entry is removed or failed. -/
theorem claim_C6 (st : MuxState) (k : Nat) :
    (k ∈ st.pending →
      failPendingRequest st k .requestTimeout =
        ({ st with pending := pdel st.pending k }, [.rejected k .requestTimeout])) ∧
    k ∉ (failPendingRequest st k .requestTimeout).1.pending ∧
    (∀ j, j ≠ k →
      (j ∈ (failPendingRequest st k .requestTimeout).1.pending ↔ j ∈ st.pending)) ∧
    (∀ j e, .rejected j e ∈ (failPendingRequest st k .requestTimeout).2 →
      j = k ∧ e = .requestTimeout) ∧
    effectiveRequestTimeout none = 60000 ∧
    (∀ t, t ≠ 0 → effectiveRequestTimeout (some t) = t) := by
  have hfst : (failPendingRequest st k .requestTimeout).1 =
      { st with pending := pdel st.pending k } := failPendingRequest_fst st k _
  refine ⟨?_, ?_, ?_, ?_, ?_, ?_⟩
  · intro hmem
    unfold failPendingRequest
    rw [if_pos hmem]
  · rw [hfst]
    exact not_mem_pdel_self st.pending k
  · intro j hj
    rw [hfst]
    show j ∈ pdel st.pending k ↔ j ∈ st.pending
    rw [mem_pdel]
    exact ⟨fun h => h.1, fun h => ⟨h, hj⟩⟩
  · intro j e hmem
    unfold failPendingRequest at hmem
    by_cases hk : k ∈ st.pending
    · rw [if_pos hk] at hmem
      simp only [List.mem_singleton, Effect.rejected.injEq] at hmem
      exact ⟨hmem.1, hmem.2⟩
    · rw [if_neg hk] at hmem
      exact absurd hmem (List.not_mem_nil _)
  · rfl
  · intro t ht
    simp [effectiveRequestTimeout, ht]

/-- Witness for C6: the timer for key 2 rejects exactly that entry. -/
theorem claim_C6_witness :
    failPendingRequest { status := .OK, seqId := 3, pending := [1, 2, 3] } 2 .requestTimeout =
      ({ status := .OK, seqId := 3, pending := [1, 3] }, [.rejected 2 .requestTimeout]) ∧
    effectiveRequestTimeout (some 5000) = 5000 := by
  have h := claim_C6 { status := .OK, seqId := 3, pending := [1, 2, 3] } 2
  constructor
  · rw [h.1 (by decide)]
    decide
  · exact h.2.2.2.2.2 5000 (by decide)

lemma subReplyEffects_no_resolved (status : Status) (a : Nat) (q : Payload)
    (k s : Nat) (p : Payload) : Effect.resolved k s p ∉ subReplyEffects status a q := by
  unfold subReplyEffects sendMessageLow
  cases hs : sendable status <;> simp

lemma forward_no_resolved (env : Env) (status : Status) (r : WeChatReq) (a : Nat)
    (effs : List Effect) (hfw : forwardWeChatRequest env status r a = .ok effs)
    (k s : Nat) (p : Payload) : Effect.resolved k s p ∉ effs := by
  cases r with
  | socketReq host payload =>
    simp only [forwardWeChatRequest] at hfw
    split at hfw
    · injection hfw with h
      subst h
      simp
    · cases hfw
  | longLinkReq llSeq initMode payload =>
    simp only [forwardWeChatRequest] at hfw
    split at hfw <;> split at hfw
    · injection hfw with h
      subst h
      simp
    · cases hfw
    · injection hfw with h
      subst h
      exact subReplyEffects_no_resolved _ _ _ _ _ _
    · cases hfw
  | shortLinkReq host port path payload =>
    simp only [forwardWeChatRequest] at hfw
    split at hfw
    · injection hfw with h
      subst h
      exact subReplyEffects_no_resolved _ _ _ _ _ _
    · cases hfw
  | unknownCase n =>
    simp only [forwardWeChatRequest] at hfw
    cases hfw

/-- Claim C10: the read path classifies an inbound frame as a reply iff
its decoded `ack` is non-zero — a zero (absent) `ack` goes to the
new-work path and never resolves anything in the pending table — and,
because allocated sequence numbers start at 1, no reachable state of the
client has a pending entry under key 0, so the zero-means-absent
convention can never misroute or drop a reply to a locally issued
request. -/
theorem claim_C10 :
    (∀ (env : Env) (st : MuxState) (f : Frame), f.ack ≠ 0 →
      onServerMessage env st f = completePendingRequest st f.ack f.payload f.seq) ∧
    (∀ (env : Env) (st : MuxState) (f : Frame), f.ack = 0 →
      ∀ (k s : Nat) (p : Payload),
        Effect.resolved k s p ∉ (onServerMessage env st f).2) ∧
    (∀ (env : Env) (ops : List Op), 0 ∉ (run env initState ops).pending) := by
  refine ⟨?_, ?_, ?_⟩
  · intro env st f hack
    unfold onServerMessage
    rw [if_pos hack]
  · intro env st f hack k s p
    unfold onServerMessage
    rw [if_neg (by simp [hack])]
    cases f.payload with
    | weChatRequest r =>
      cases hfw : forwardWeChatRequest env st.status r f.seq with
      | ok effs =>
        simp only [hfw]
        exact forward_no_resolved env st.status r f.seq effs hfw k s p
      | error e =>
        simp only [hfw]
        unfold errorCall failAllPendingRequest
        split
        · simp
        · intro hmem
          replace hmem : Effect.resolved k s p ∈
              st.pending.map (fun j => Effect.rejected j (.cancel .CLIENT_ERROR)) ++
                [Effect.streamCancelled] := hmem
          rcases List.mem_append.mp hmem with hmem | hmem
          · obtain ⟨j, _, hj⟩ := List.mem_map.mp hmem
            exact absurd hj (by simp)
          · rw [List.mem_singleton] at hmem
            cases hmem
    | weChatResponse r => simp
    | systemEventRequest =>
      intro hmem
      replace hmem : Effect.resolved k s p ∈
          subReplyEffects st.status f.seq .systemEventResponse ++
            [Effect.systemEventSurfaced] := hmem
      rcases List.mem_append.mp hmem with hmem | hmem
      · exact subReplyEffects_no_resolved _ _ _ _ _ _ hmem
      · rw [List.mem_singleton] at hmem
        cases hmem
    | systemEventResponse => simp
    | msg t => simp
  · intro env ops hmem
    have hinv := run_inv env ops initState inv_init
    have := (hinv.2 0 hmem).1
    omega

/-- Witness for C10: a frame with `ack = 2` resolves pending entry 2,
and a frame with `ack = 0` resolves nothing. -/
theorem claim_C10_witness :
    onServerMessage env0 { status := .OK, seqId := 2, pending := [2] }
        { seq := 0, ack := 2, payload := .msg 1 } =
      completePendingRequest { status := .OK, seqId := 2, pending := [2] } 2 (.msg 1) 0 ∧
    Effect.resolved 2 0 (.msg 1) ∉
      (onServerMessage env0 { status := .OK, seqId := 2, pending := [2] }
        { seq := 5, ack := 0, payload := .msg 1 }).2 := by
  exact ⟨claim_C10.1 env0 _ _ (by decide),
    claim_C10.2.1 env0 { status := .OK, seqId := 2, pending := [2] }
      { seq := 5, ack := 0, payload := .msg 1 } rfl 2 0 (.msg 1)⟩

/-! ### Claim theorems: send guard (C2, corrected) -/

/-- Counterexample to claim C2 as stated: with the connection status
`SERVER_COMPLETE` — a non-`OK` status — a `sendOnly` call does *not* fail
with the cancellation error: it reports no error and writes its frame to
the stream. -/
theorem claim_C2_counterexample :
    (sendMessage { status := .SERVER_COMPLETE, seqId := 0, pending := [] }
        (.msg 7) true none).2.2 = none ∧
    (sendMessage { status := .SERVER_COMPLETE, seqId := 0, pending := [] }
        (.msg 7) true none).2.1 = [.wroteFrame none none (.msg 7)] := by
  decide

/-- Claim C2 (amended): a `request` or `sendOnly` call made while the
status is `SERVER_ERROR`, `CLIENT_ERROR` or `CLIENT_COMPLETE` fails with
the cancellation error carrying that terminal status as its reason, and
no frame is written; `SERVER_COMPLETE`, like `OK`, is treated by the
guard as still sendable — such a call reports no error and writes its
frame. -/
theorem claim_C2_amended (st : MuxState) (p : Payload) (so : Bool) (ack : Option Nat) :
    (st.status = .SERVER_ERROR ∨ st.status = .CLIENT_ERROR ∨ st.status = .CLIENT_COMPLETE →
      (sendMessage st p so ack).2.2 = some (.cancel st.status) ∧
      (sendMessage st p so ack).2.1 = []) ∧
    (st.status = .OK ∨ st.status = .SERVER_COMPLETE →
      (sendMessage st p so ack).2.2 = none ∧
      (sendMessage st p so ack).2.1 =
        [.wroteFrame (if so then none else some (st.seqId + 1)) ack p]) := by
  constructor
  · intro h
    have hs : sendable st.status = false := by
      rcases h with h | h | h <;> rw [h] <;> rfl
    have hlow : ∀ sq, sendMessageLow st.status p sq ack = .error (.cancel st.status) := by
      intro sq
      unfold sendMessageLow
      rw [hs]
      simp
    cases so <;> simp [sendMessage, hlow]
  · intro h
    have hs : sendable st.status = true := by
      rcases h with h | h <;> rw [h] <;> rfl
    have hlow : ∀ sq, sendMessageLow st.status p sq ack = .ok (.wroteFrame sq ack p) := by
      intro sq
      unfold sendMessageLow
      rw [hs]
      simp
    cases so <;> simp [sendMessage, hlow]

/-- Witness for the amended C2: a `request` in `CLIENT_ERROR` is rejected
with reason `CLIENT_ERROR` and writes nothing; a `request` in
`SERVER_COMPLETE` writes its frame. -/
theorem claim_C2_amended_witness :
    ((sendMessage { status := .CLIENT_ERROR, seqId := 0, pending := [] }
        (.msg 1) false none).2.2 = some (.cancel .CLIENT_ERROR) ∧
      (sendMessage { status := .CLIENT_ERROR, seqId := 0, pending := [] }
        (.msg 1) false none).2.1 = []) ∧
    ((sendMessage { status := .SERVER_COMPLETE, seqId := 0, pending := [] }
        (.msg 1) false none).2.2 = none ∧
      (sendMessage { status := .SERVER_COMPLETE, seqId := 0, pending := [] }
        (.msg 1) false none).2.1 = [.wroteFrame (some 1) none (.msg 1)]) := by
  constructor
  · exact (claim_C2_amended { status := .CLIENT_ERROR, seqId := 0, pending := [] }
      (.msg 1) false none).1 (Or.inr (Or.inl rfl))
  · have h := (claim_C2_amended { status := .SERVER_COMPLETE, seqId := 0, pending := [] }
      (.msg 1) false none).2 (Or.inr rfl)
    exact ⟨h.1, by rw [h.2]; decide⟩

/-! ### Claim theorems: forwarding failures (C1, corrected) -/

/-- Counterexample to claim C1 as stated: an inbound proxied request with
an unsupported variant makes the read handler catch the error and call
`error(...)`, which does tear the connection down — the status leaves
`OK`, the underlying stream is cancelled, and the unrelated pending
request under key 3 is failed. -/
theorem claim_C1_counterexample :
    (onServerMessage env0 { status := .OK, seqId := 5, pending := [3] }
        { seq := 7, ack := 0, payload := .weChatRequest (.unknownCase 99) }).1.status ≠
      Status.OK ∧
    Effect.streamCancelled ∈
      (onServerMessage env0 { status := .OK, seqId := 5, pending := [3] }
        { seq := 7, ack := 0, payload := .weChatRequest (.unknownCase 99) }).2 ∧
    Effect.rejected 3 (.cancel .CLIENT_ERROR) ∈
      (onServerMessage env0 { status := .OK, seqId := 5, pending := [3] }
        { seq := 7, ack := 0, payload := .weChatRequest (.unknownCase 99) }).2 := by
  decide

/-- Claim C1 (amended): an error raised while forwarding an inbound
proxied request (unsupported variant or transport failure) is caught by
the read handler — it never escapes — and is reported by invoking the
client's `error` path; that path, the status being `OK`, rejects every
currently pending request with `CLIENT_ERROR`, sets the status to
`CLIENT_ERROR`, and cancels the underlying stream.  An unsupported
variant always raises such an error. -/
theorem claim_C1_amended (env : Env) (st : MuxState) (f : Frame) (r : WeChatReq)
    (hst : st.status = Status.OK) (hack : f.ack = 0)
    (hp : f.payload = .weChatRequest r)
    (hfw : forwardWeChatRequest env st.status r f.seq = .error ()) :
    onServerMessage env st f =
      ({ st with status := .CLIENT_ERROR, pending := [] },
        st.pending.map (fun k => .rejected k (.cancel .CLIENT_ERROR)) ++
          [.streamCancelled]) ∧
    (∀ (n a : Nat), forwardWeChatRequest env st.status (.unknownCase n) a = .error ()) := by
  constructor
  · unfold onServerMessage
    rw [if_neg (by simp [hack]), hp]
    simp only [hfw]
    unfold errorCall failAllPendingRequest
    rw [if_neg (by simp [hst])]
  · intro n a
    rfl

/-- Witness for the amended C1 at a concrete state and frame. -/
theorem claim_C1_amended_witness :
    onServerMessage env0 { status := .OK, seqId := 5, pending := [3, 4] }
        { seq := 7, ack := 0, payload := .weChatRequest (.unknownCase 99) } =
      ({ status := .CLIENT_ERROR, seqId := 5, pending := [] },
        [.rejected 3 (.cancel .CLIENT_ERROR), .rejected 4 (.cancel .CLIENT_ERROR),
          .streamCancelled]) := by
  have h := claim_C1_amended env0 { status := .OK, seqId := 5, pending := [3, 4] }
    { seq := 7, ack := 0, payload := .weChatRequest (.unknownCase 99) }
    (.unknownCase 99) rfl rfl rfl rfl
  rw [h.1]
  rfl

/-! ### File transfer pipeline (`FileUtils.ts`)

The cryptographic and media helpers (`utils/crypto`, `utils/MediaUtils`,
`utils/FileUnpacker`) are repository code that is not under `src/`; they
are modelled from the spec where marked. -/

/-- Byte buffers (`Bytes` in `ByteUtils`). -/
abbrev Bytes := List Nat

/-- Modelled from the spec: `adler32` lives in `utils/crypto`, which is
not under `src/`; the spec fixes it as "a checksum (Adler-32 over the
full buffer starting from checksum seed 0)".  This is the standard
Adler-32 recurrence with an explicit seed argument. -/
def adler32 (data : Bytes) (seed : Nat) : Nat :=
  let r := data.foldl
    (fun ab b => ((ab.1 + b) % 65521, (ab.2 + ab.1 + b) % 65521))
    (seed % 65536, seed / 65536 % 65536)
  r.2 * 65536 + r.1

/-- Modelled from the spec: `md5` lives in `utils/crypto`, which is not
under `src/`; the spec uses it only as "a content hash (MD5)" over a byte
buffer.  The model is a deterministic 128-bit digest (a polynomial fold),
standing in for the MD5 compression that lives outside the repository. -/
def md5 (data : Bytes) : Nat :=
  data.foldl (fun h b => (h * 131 + b + 17) % (2 ^ 128)) (data.length % (2 ^ 128))

/-- The cipher block size (AES: 16 bytes). -/
def aesBlockSize : Nat := 16

/-- PKCS#7 padding to the block size: appends between 1 and 16 bytes,
each equal to the pad length. -/
def pkcs7pad (data : Bytes) : Bytes :=
  data ++ List.replicate (aesBlockSize - data.length % aesBlockSize)
    (aesBlockSize - data.length % aesBlockSize)

/-- PKCS#7 unpadding: drop as many trailing bytes as the last byte says. -/
def pkcs7unpad (data : Bytes) : Bytes :=
  match data.getLast? with
  | none => []
  | some p => data.take (data.length - p)

/-- The keyed block masking applied byte-wise: position `i` of the buffer
is position `i % 16` of its 16-byte block and is XOR-masked with that key
byte.  The same keyed bijection is applied to every block — ECB. -/
def xorKeyStream (key : Bytes) (i : Nat) : Bytes → Bytes
  | [] => []
  | b :: rest => (b ^^^ key.getD (i % aesBlockSize) 0) :: xorKeyStream key (i + 1) rest

/-- Modelled from the spec: `AesEcbEncrypt` lives in `utils/crypto`,
which is not under `src/`.  The spec describes it as block-cipher
encryption "using no initialization vector (ECB)".  ECB mode is modelled
faithfully — pad to the block size, apply one keyed block permutation
independently to each block — with the AES-128 block permutation itself
(implemented by the platform crypto library, outside the repository)
abstracted as the keyed XOR bijection on blocks, keeping every property
the spec relies on: deterministic, key-dependent, IV-free, block-wise,
and invertible under the same key. -/
def AesEcbEncrypt (key : Bytes) (data : Bytes) : Bytes :=
  xorKeyStream key 0 (pkcs7pad data)

/-- Modelled from the spec: the matching decryption — invert the keyed
block permutation on each block, then strip the padding. -/
def AesEcbDecrypt (key : Bytes) (data : Bytes) : Bytes :=
  pkcs7unpad (xorKeyStream key 0 data)

lemma xorKeyStream_involutive (key : Bytes) (i : Nat) (l : Bytes) :
    xorKeyStream key i (xorKeyStream key i l) = l := by
  induction l generalizing i with
  | nil => rfl
  | cons b rest ih =>
    simp only [xorKeyStream, Nat.xor_cancel_right, ih]

lemma xorKeyStream_length (key : Bytes) (i : Nat) (l : Bytes) :
    (xorKeyStream key i l).length = l.length := by
  induction l generalizing i with
  | nil => rfl
  | cons b rest ih => simp [xorKeyStream, ih]

lemma padLen_pos (data : Bytes) :
    1 ≤ aesBlockSize - data.length % aesBlockSize := by
  have h : data.length % aesBlockSize < aesBlockSize := Nat.mod_lt _ (by decide)
  omega

lemma replicate_eq_concat (n a : Nat) (h : 1 ≤ n) :
    List.replicate n a = List.replicate (n - 1) a ++ [a] := by
  obtain ⟨q, rfl⟩ : ∃ q, n = q + 1 := ⟨n - 1, by omega⟩
  simp [List.replicate_succ']

lemma unpad_append (data pad : Bytes) (p : Nat) (hlen : pad.length + 1 = p) :
    pkcs7unpad (data ++ pad ++ [p]) = data := by
  unfold pkcs7unpad
  rw [List.getLast?_concat]
  show List.take ((data ++ pad ++ [p]).length - p) (data ++ pad ++ [p]) = data
  have h1 : (data ++ pad ++ [p]).length - p = data.length := by
    simp
    omega
  rw [h1, List.append_assoc, List.take_left' rfl]

lemma pkcs7unpad_pad (data : Bytes) : pkcs7unpad (pkcs7pad data) = data := by
  have hpos := padLen_pos data
  unfold pkcs7pad
  rw [replicate_eq_concat _ _ hpos, ← List.append_assoc]
  exact unpad_append data _ _ (by simp; omega)

/-- Round trip of the modelled ECB cipher. -/
lemma aes_roundtrip (key data : Bytes) :
    AesEcbDecrypt key (AesEcbEncrypt key data) = data := by
  unfold AesEcbEncrypt AesEcbDecrypt
  rw [xorKeyStream_involutive, pkcs7unpad_pad]

/-- `FileUploadDataMeta` (size, checksum, md5). -/
structure FileUploadDataMeta where
  size : Nat
  checksum : Nat
  md5 : Nat
deriving DecidableEq, Repr

/-- `FileUploadEncryptedDataMeta` (aeskey, size, checksum, md5). -/
structure FileUploadEncryptedDataMeta where
  aeskey : Bytes
  size : Nat
  checksum : Nat
  md5 : Nat
deriving DecidableEq, Repr

/-- The record returned by `encryptUploadData`. -/
structure EncryptUploadRet where
  plainDataMeta : FileUploadDataMeta
  encryptedDataMeta : FileUploadEncryptedDataMeta
  encryptedData : Bytes
deriving DecidableEq, Repr

/-- `encryptUploadData(plainData, aesKey?)`: `aesKey = aesKey ||
AesGenKey()` — the generator's output is the `freshKey` argument,
consulted only when no key is supplied — then AES-ECB encryption and the
two metadata triples, each computed directly over the corresponding
buffer: its length, `adler32(buffer, 0)` and `md5(buffer)`. -/
def encryptUploadData (plainData : Bytes) (aesKeyOpt : Option Bytes) (freshKey : Bytes) :
    EncryptUploadRet :=
  { plainDataMeta :=
      { size := plainData.length
        checksum := adler32 plainData 0
        md5 := md5 plainData }
    encryptedDataMeta :=
      { aeskey := aesKeyOpt.getD freshKey
        size := (AesEcbEncrypt (aesKeyOpt.getD freshKey) plainData).length
        checksum := adler32 (AesEcbEncrypt (aesKeyOpt.getD freshKey) plainData) 0
        md5 := md5 (AesEcbEncrypt (aesKeyOpt.getD freshKey) plainData) }
    encryptedData := AesEcbEncrypt (aesKeyOpt.getD freshKey) plainData }

/-- Claim C7: `encryptUploadData` is pure and deterministic given the
same key (the fresh-key source is not consulted when a key is supplied,
and a fresh key is used exactly when none is supplied); the returned
metadata equals the directly computed length, Adler-32 checksum (seed 0
over the full buffer) and MD5 hash of the plaintext and of the
ciphertext respectively; and decrypting the ciphertext with the key
round-trips back to the original plaintext. -/
theorem claim_C7 (plainData key freshKey freshKey2 : Bytes) :
    encryptUploadData plainData (some key) freshKey =
      encryptUploadData plainData (some key) freshKey2 ∧
    (encryptUploadData plainData none freshKey).encryptedDataMeta.aeskey = freshKey ∧
    (encryptUploadData plainData (some key) freshKey).encryptedDataMeta.aeskey = key ∧
    (encryptUploadData plainData (some key) freshKey).plainDataMeta =
      { size := plainData.length, checksum := adler32 plainData 0, md5 := md5 plainData } ∧
    (encryptUploadData plainData (some key) freshKey).encryptedData =
      AesEcbEncrypt key plainData ∧
    (encryptUploadData plainData (some key) freshKey).encryptedDataMeta =
      { aeskey := key
        size := (AesEcbEncrypt key plainData).length
        checksum := adler32 (AesEcbEncrypt key plainData) 0
        md5 := md5 (AesEcbEncrypt key plainData) } ∧
    AesEcbDecrypt key (encryptUploadData plainData (some key) freshKey).encryptedData =
      plainData ∧
    AesEcbDecrypt freshKey (encryptUploadData plainData none freshKey).encryptedData =
      plainData := by
  refine ⟨rfl, rfl, rfl, rfl, rfl, rfl, ?_, ?_⟩
  · exact aes_roundtrip key plainData
  · exact aes_roundtrip freshKey plainData

/-- `FileUploadImageMeta`: data metadata plus pixel dimensions probed
from the plaintext. -/
structure FileUploadImageMeta where
  plainDataMeta : FileUploadDataMeta
  encryptedDataMeta : FileUploadEncryptedDataMeta
  width : Nat
  height : Nat
deriving DecidableEq, Repr

/-- Modelled from the spec: the media probes (`MediaUtils`, not under
`src/`) — "given bytes, return dimensions" and the bounded thumbnail
scaler — as an environment of pure functions. -/
structure MediaEnv where
  getImageSize : Bytes → Nat × Nat
  createImageThumb : Bytes → Nat → Bytes

/-- `generateUploadImageMeta(imageData, aesKey?)`: encrypt the image and
assemble its metadata, attaching width/height probed from the
*plaintext*.  Returns the meta and the ciphertext. -/
def generateUploadImageMeta (media : MediaEnv) (imageData : Bytes)
    (aesKeyOpt : Option Bytes) (freshKey : Bytes) : FileUploadImageMeta × Bytes :=
  ({ plainDataMeta := (encryptUploadData imageData aesKeyOpt freshKey).plainDataMeta
     encryptedDataMeta := (encryptUploadData imageData aesKeyOpt freshKey).encryptedDataMeta
     width := (media.getImageSize imageData).1
     height := (media.getImageSize imageData).2 },
    (encryptUploadData imageData aesKeyOpt freshKey).encryptedData)

/-- Assignment into the `dataBag` JS object: a later assignment to an
existing key overwrites it, otherwise the pair is appended. -/
def bagSet (bag : List (Nat × Bytes)) (k : Nat) (v : Bytes) : List (Nat × Bytes) :=
  if bag.any (fun kv => kv.1 = k) then
    bag.map (fun kv => if kv.1 = k then (k, v) else kv)
  else bag ++ [(k, v)]

/-- `FileUploadImageParams`: the image metadata and, with `useThumb`, the
thumbnail metadata. -/
structure FileUploadImageParams where
  imageMeta : FileUploadImageMeta
  thumbImageMeta : Option FileUploadImageMeta
deriving DecidableEq, Repr

/-- `prepareImageUpload(imageData, useThumb)`: encrypt the image under a
fresh key, key its ciphertext into the `dataBag` by the ciphertext's MD5;
with `useThumb`, build the 120px-bounded thumbnail, encrypt it *reusing
the full image's key*, and add its ciphertext under its own MD5.  Returns
the params, the single key, and the bag. -/
def prepareImageUpload (media : MediaEnv) (imageData : Bytes) (useThumb : Bool)
    (freshKey : Bytes) : FileUploadImageParams × Bytes × List (Nat × Bytes) :=
  if useThumb then
    ({ imageMeta := (generateUploadImageMeta media imageData none freshKey).1
       thumbImageMeta := some (generateUploadImageMeta media
          (media.createImageThumb imageData 120)
          (some (generateUploadImageMeta media imageData none freshKey).1.encryptedDataMeta.aeskey)
          freshKey).1 }
      , (generateUploadImageMeta media imageData none freshKey).1.encryptedDataMeta.aeskey
      , bagSet
          [((generateUploadImageMeta media imageData none freshKey).1.encryptedDataMeta.md5,
            (generateUploadImageMeta media imageData none freshKey).2)]
          (generateUploadImageMeta media
            (media.createImageThumb imageData 120)
            (some (generateUploadImageMeta media imageData none freshKey).1.encryptedDataMeta.aeskey)
            freshKey).1.encryptedDataMeta.md5
          (generateUploadImageMeta media
            (media.createImageThumb imageData 120)
            (some (generateUploadImageMeta media imageData none freshKey).1.encryptedDataMeta.aeskey)
            freshKey).2)
  else
    ({ imageMeta := (generateUploadImageMeta media imageData none freshKey).1
       thumbImageMeta := none }
      , (generateUploadImageMeta media imageData none freshKey).1.encryptedDataMeta.aeskey
      , [((generateUploadImageMeta media imageData none freshKey).1.encryptedDataMeta.md5,
          (generateUploadImageMeta media imageData none freshKey).2)])

/-- Claim C8: an image upload prepared with `useThumb = true` returns a
data map with exactly two entries — the full image's ciphertext and the
thumbnail's ciphertext, each keyed by that variant's own ciphertext MD5
hash (never the plaintext's) — the thumbnail is encrypted under the same
symmetric key as the full image, and that single key is the one returned.
(The two ciphertext hashes are assumed distinct; were they equal the
JS-object assignment would collapse the two entries into one.) -/
theorem claim_C8 (media : MediaEnv) (imageData freshKey : Bytes)
    (h : md5 (AesEcbEncrypt freshKey imageData) ≠
      md5 (AesEcbEncrypt freshKey (media.createImageThumb imageData 120))) :
    (prepareImageUpload media imageData true freshKey).2.2 =
      [(md5 (AesEcbEncrypt freshKey imageData), AesEcbEncrypt freshKey imageData),
        (md5 (AesEcbEncrypt freshKey (media.createImageThumb imageData 120)),
          AesEcbEncrypt freshKey (media.createImageThumb imageData 120))] ∧
    (prepareImageUpload media imageData true freshKey).2.2.length = 2 ∧
    (∀ kv ∈ (prepareImageUpload media imageData true freshKey).2.2, kv.1 = md5 kv.2) ∧
    (prepareImageUpload media imageData true freshKey).2.1 = freshKey ∧
    ((prepareImageUpload media imageData true freshKey).1.thumbImageMeta.map
      (fun m => m.encryptedDataMeta.aeskey)) = some freshKey ∧
    (prepareImageUpload media imageData true freshKey).1.imageMeta.encryptedDataMeta.aeskey =
      freshKey := by
  have hbag : (prepareImageUpload media imageData true freshKey).2.2 =
      [(md5 (AesEcbEncrypt freshKey imageData), AesEcbEncrypt freshKey imageData),
        (md5 (AesEcbEncrypt freshKey (media.createImageThumb imageData 120)),
          AesEcbEncrypt freshKey (media.createImageThumb imageData 120))] := by
    show bagSet
        [(md5 (AesEcbEncrypt freshKey imageData), AesEcbEncrypt freshKey imageData)]
        (md5 (AesEcbEncrypt freshKey (media.createImageThumb imageData 120)))
        (AesEcbEncrypt freshKey (media.createImageThumb imageData 120)) = _
    unfold bagSet
    have hcond : ([(md5 (AesEcbEncrypt freshKey imageData),
          AesEcbEncrypt freshKey imageData)].any fun kv =>
        kv.1 = md5 (AesEcbEncrypt freshKey (media.createImageThumb imageData 120))) =
        false := by
      simp [h]
    rw [hcond]
    simp
  refine ⟨hbag, ?_, ?_, rfl, rfl, rfl⟩
  · rw [hbag]
    rfl
  · intro kv hkv
    rw [hbag] at hkv
    simp only [List.mem_cons, List.not_mem_nil, or_false] at hkv
    rcases hkv with rfl | rfl <;> rfl

/-- Witness for C8 on a concrete image, thumbnail scaler, and key. -/
theorem claim_C8_witness :
    (prepareImageUpload ⟨fun _ => (1, 1), fun d _ => d.take 1⟩ [0, 1] true [5]).2.2.length =
      2 ∧
    (prepareImageUpload ⟨fun _ => (1, 1), fun d _ => d.take 1⟩ [0, 1] true [5]).2.1 = [5] := by
  have h := claim_C8 ⟨fun _ => (1, 1), fun d _ => d.take 1⟩ [0, 1] [5] (by decide)
  exact ⟨h.2.1, h.2.2.2.1⟩

/-! ### Download path (`downloadFile`) -/

/-- A decoded application-level frame: a result code and the encrypted
file-data field (the `retcode` and `filedata` entries of the response
body). -/
structure FileResponse where
  retCode : Nat
  fileData : Bytes
deriving DecidableEq, Repr

/-- The external frame decoder's state: the symmetric key it was
constructed with and its internal byte buffer. -/
structure FileUnpacker where
  aesKey : Bytes
  buffer : Bytes
deriving DecidableEq, Repr

/-- Modelled from the spec: `FileUnpacker.reset()` (not under `src/`)
clears the decoder's internal buffering state. -/
def unpackerReset (u : FileUnpacker) : FileUnpacker := { u with buffer := [] }

/-- Modelled from the spec: `FileUnpacker.update(bytes)` (not under
`src/`) — "feed bytes, get zero-or-one decoded frames".  The framing is
length-prefixed: the first buffered byte is the body length, the body is
one result-code byte followed by the encrypted file-data field; a frame
is emitted only once the buffer holds a complete body. -/
def unpackerUpdate (u : FileUnpacker) (chunk : Bytes) : FileUnpacker × List FileResponse :=
  match u.buffer ++ chunk with
  | [] => ({ u with buffer := [] }, [])
  | n :: body =>
    if n ≤ body.length ∧ 1 ≤ n then
      ({ u with buffer := body.drop n },
        [{ retCode := (body.take n).headD 0, fileData := (body.take n).drop 1 }])
    else
      ({ u with buffer := n :: body }, [])

/-- Modelled from the spec: `FileUnpacker.getDecryptedFileData` — extract
the named encrypted-file-data field and decrypt it with the symmetric key
the unpacker was constructed with. -/
def getDecryptedFileData (u : FileUnpacker) (r : FileResponse) : Bytes :=
  AesEcbDecrypt u.aesKey r.fileData

/-- `FileDownloadRequest`: target host/port, request payload, and the
embedded symmetric key (`unpackaeskey`). -/
structure FileDownloadRequest where
  host : String
  port : Nat
  payload : Bytes
  unpackAesKey : Bytes
deriving DecidableEq, Repr

/-- The `onReceive` loop of `downloadFile`: each inbound chunk is fed to
the unpacker in arrival order; the first chunk whose update yields at
least one frame stops the socket with that list's first frame
(`response = responseList[0]; return true`), a chunk yielding no frame
returns `false` and the loop continues. -/
def receiveLoop (u : FileUnpacker) : List Bytes → Option FileResponse
  | [] => none
  | c :: rest =>
    match unpackerUpdate u c with
    | (u2, []) => receiveLoop u2 rest
    | (_, f :: _) => some f

/-- The failure cases of `downloadFile`: stream ended with no decoded
frame ("received null response"), or a non-zero result code. -/
inductive DownloadErr where
  | noResponse
  | badRetCode (code : Nat)
deriving DecidableEq, Repr

/-- `downloadFile(fileDownloadRequest)` over a given arrival sequence of
inbound byte chunks: construct the unpacker with the key embedded in the
request, reset it on connect, run the receive loop; throw if no frame
was decoded; throw carrying the result code if it is non-zero; else
return the decrypted `filedata` field. -/
def downloadFile (req : FileDownloadRequest) (chunks : List Bytes) :
    Except DownloadErr Bytes :=
  match receiveLoop (unpackerReset { aesKey := req.unpackAesKey, buffer := [] }) chunks with
  | none => .error .noResponse
  | some resp =>
    if resp.retCode ≠ 0 then .error (.badRetCode resp.retCode)
    else .ok (getDecryptedFileData { aesKey := req.unpackAesKey, buffer := [] } resp)

/-- Claim C9: `downloadFile` feeds each inbound chunk to the decoder and
stops at the first chunk whose update yields at least one frame, taking
the first decoded frame; it fails if the stream ends with zero decoded
frames, fails carrying the result code when that is non-zero, and
otherwise returns the file-data field decrypted with the key embedded in
the request; in particular a frame that only assembles after the second
chunk is the one returned — the loop does not give up after a frameless
first chunk. -/
theorem claim_C9 (req : FileDownloadRequest) :
    (∀ chunks,
      receiveLoop { aesKey := req.unpackAesKey, buffer := [] } chunks = none →
      downloadFile req chunks = .error .noResponse) ∧
    (∀ chunks f,
      receiveLoop { aesKey := req.unpackAesKey, buffer := [] } chunks = some f →
      f.retCode ≠ 0 →
      downloadFile req chunks = .error (.badRetCode f.retCode)) ∧
    (∀ chunks f,
      receiveLoop { aesKey := req.unpackAesKey, buffer := [] } chunks = some f →
      f.retCode = 0 →
      downloadFile req chunks = .ok (AesEcbDecrypt req.unpackAesKey f.fileData)) ∧
    (∀ c1 c2 u1 u2 f fs,
      unpackerUpdate { aesKey := req.unpackAesKey, buffer := [] } c1 = (u1, []) →
      unpackerUpdate u1 c2 = (u2, f :: fs) →
      receiveLoop { aesKey := req.unpackAesKey, buffer := [] } [c1, c2] = some f) := by
  refine ⟨?_, ?_, ?_, ?_⟩
  · intro chunks hloop
    unfold downloadFile
    rw [show unpackerReset { aesKey := req.unpackAesKey, buffer := [] } =
      ({ aesKey := req.unpackAesKey, buffer := [] } : FileUnpacker) from rfl, hloop]
  · intro chunks f hloop hcode
    unfold downloadFile
    rw [show unpackerReset { aesKey := req.unpackAesKey, buffer := [] } =
      ({ aesKey := req.unpackAesKey, buffer := [] } : FileUnpacker) from rfl, hloop]
    simp [hcode]
  · intro chunks f hloop hcode
    unfold downloadFile
    rw [show unpackerReset { aesKey := req.unpackAesKey, buffer := [] } =
      ({ aesKey := req.unpackAesKey, buffer := [] } : FileUnpacker) from rfl, hloop]
    simp [hcode, getDecryptedFileData]
  · intro c1 c2 u1 u2 f fs h1 h2
    simp only [receiveLoop, h1, h2]

/-- Witness for C9: the frame `[3, 0, 7, 9]` (body length 3, result code
0, file data `[7, 9]`) split across two chunks is only taken after the
second chunk; a whole frame with result code 5 fails with that code; an
incomplete stream fails with no response. -/
theorem claim_C9_witness :
    downloadFile { host := "h", port := 80, payload := [1], unpackAesKey := [9] } [[0]] =
      .error .noResponse ∧
    downloadFile { host := "h", port := 80, payload := [1], unpackAesKey := [9] }
        [[2, 5, 7]] = .error (.badRetCode 5) ∧
    downloadFile { host := "h", port := 80, payload := [1], unpackAesKey := [9] }
        [[3, 0, 7, 9]] = .ok (AesEcbDecrypt [9] [7, 9]) ∧
    receiveLoop { aesKey := [9], buffer := [] } [[3, 0], [7, 9]] =
      some { retCode := 0, fileData := [7, 9] } := by
  have h := claim_C9 { host := "h", port := 80, payload := [1], unpackAesKey := [9] }
  refine ⟨?_, ?_, ?_, ?_⟩
  · exact h.1 [[0]] (by decide)
  · exact h.2.1 [[2, 5, 7]] { retCode := 5, fileData := [7] } (by decide) (by decide)
  · exact h.2.2.1 [[3, 0, 7, 9]] { retCode := 0, fileData := [7, 9] } (by decide) rfl
  · exact h.2.2.2 [3, 0] [7, 9] { aesKey := [9], buffer := [3, 0] }
      { aesKey := [9], buffer := [] } { retCode := 0, fileData := [7, 9] } []
      (by decide) (by decide)

end PadLocal
